import Mathlib

/-!
Verification of the schema registry in `src/models/SchemaDefinitions.js` and
the generic entity lookup in `src/routes/api.js`.

The JavaScript module reads JSON entity definitions from a directory, compiles
each one into a Mongoose schema with `convertType`, registers the result in the
module-level `Models` map, and finally injects a hand-written default `User`
schema when no entry named `User` exists.  The definitions below are a shallow
embedding of that module: JSON type descriptors become the inductive
`Descriptor`, compiled Mongoose schema nodes become `SNode`, and the build loop
becomes `buildModels`, a fold over an ordered list of (file name, parse result)
pairs.  Log output (console.log / console.warn / console.error calls) is
modelled by the `LogEvent` list carried in `BuildState`.
-/

namespace SchemaDefs

/-- A JSON literal usable as an `enum` member or a `default` value, plus
`vNow` standing for the `Date.now` function that the source installs as the
default of its timestamp fields. -/
inductive Value where
  | vNull
  | vBool (b : Bool)
  | vNum (n : Int)
  | vStr (s : String)
  | vNow
deriving DecidableEq, Repr

/-- A compiled Mongoose schema node, the output language of `convertType`.

* `sString`, `sDate`, `sNumber`, `sBoolean`, `sMixed` are the Mongoose type
  constructors `String`, `Date`, `Number`, `Boolean`, `Schema.Types.Mixed`.
* `sArray e` is the singleton-array type `[e]`.
* `sObj fields required` is a bare nested schema object (a plain JS object of
  sub-fields).  The `required` flag records whether the loader executed
  `mongooseDef.required = true` on that object.
* `sField t enum default required unique` is the envelope object
  `{ type: t, enum: ..., default: ..., required: ..., unique: ... }`;
  an absent JS property is `none` / `false`. -/
inductive SNode where
  | sString
  | sDate
  | sNumber
  | sBoolean
  | sMixed
  | sArray (elem : SNode)
  | sObj (fields : List (String × SNode)) (required : Bool)
  | sField (t : SNode) (enm : Option (List Value)) (dflt : Option Value)
      (required : Bool) (unique : Bool)

/-- A JSON type descriptor as consumed by `convertType`: the relevant
properties of the JSON object (`type`, `format`, `items`, `properties`,
`enum`, `default`), each `none` when absent.  `properties` preserves the JSON
object key order. -/
inductive Descriptor where
  | mk (type : Option String) (format : Option String)
      (items : Option Descriptor)
      (properties : Option (List (String × Descriptor)))
      (enum : Option (List Value))
      (dflt : Option Value)

/-- JavaScript truthiness of the optional string `field.items.type`: present
and not the empty string. -/
def strTruthy : Option String → Bool
  | some s => !(s == "")
  | none => false

/-- The `.type` component produced by the recursive call
`convertType({ type: field.items.type })` in the array-of-primitives branch.
The source builds a synthetic descriptor carrying only the `type` property, so
`format`, `enum`, `default`, `items` and `properties` are all absent in that
call; this function computes the resulting type directly.  The guard in
`convertType` guarantees it is only reached with a type other than `object`
(`convertType_synthetic` below proves the correspondence on that domain). -/
def primTypeOf (t : Option String) : SNode :=
  if t = some ("string") then .sString
  else if t = some ("number") ∨ t = some ("integer") then .sNumber
  else if t = some ("boolean") then .sBoolean
  else if t = some ("array") then .sArray .sMixed
  else .sMixed

mutual

/-- Shallow embedding of `convertType` from `src/models/SchemaDefinitions.js`.
Branch for branch:
* `type === "string"`: `Date` when `format` is `date` or `date-time`,
  otherwise `String`;
* `type === "number" || type === "integer"`: `Number`;
* `type === "boolean"`: `Boolean`;
* `type === "array"`: when `items.type === "object"` the element is the bare
  nested schema compiled from `items.properties`; otherwise when `items.type`
  is truthy the element is the `.type` of `convertType({type: items.type})`;
  otherwise `[Mixed]`;
* `type === "object"`: early return of the bare nested schema compiled from
  `properties` (no enum/default envelope);
* anything else: `Schema.Types.Mixed`.
Except in the early-returning object branch, the `enum` and `default`
properties of the descriptor are attached to the resulting envelope. -/
def convertType : Descriptor → SNode
  | .mk t fmt items props en df =>
    if t = some ("string") then
      .sField (if fmt = some ("date") ∨ fmt = some ("date-time") then .sDate else .sString)
        en df false false
    else if t = some ("number") ∨ t = some ("integer") then
      .sField .sNumber en df false false
    else if t = some ("boolean") then
      .sField .sBoolean en df false false
    else if t = some ("array") then
      match items with
      | some (.mk itT _ _ itProps _ _) =>
        if itT = some ("object") then
          .sField (.sArray (.sObj
            (match itProps with
             | some ps => convertProps ps
             | none => []) false)) en df false false
        else if strTruthy itT then
          .sField (.sArray (primTypeOf itT)) en df false false
        else
          .sField (.sArray .sMixed) en df false false
      | none => .sField (.sArray .sMixed) en df false false
    else if t = some ("object") then
      .sObj (match props with
             | some ps => convertProps ps
             | none => []) false
    else
      .sField .sMixed en df false false

/-- The `Object.keys(...).forEach` loops of `convertType`: compile every
property of a `properties` object in order. -/
def convertProps : List (String × Descriptor) → List (String × SNode)
  | [] => []
  | (k, d) :: rest => (k, convertType d) :: convertProps rest

end

/-- The top level of one parsed definition file: its `name`, `properties` and
`required` members, each `none` when absent. -/
structure EntityDefinition where
  name : Option String
  properties : Option (List (String × Descriptor))
  required : Option (List String)

/-- Assignment `obj[k] = v` on a JS object represented as a key-ordered
association list with distinct keys: replace the value in place when the key
exists, append otherwise. -/
def setKey {α : Type} : List (String × α) → String → α → List (String × α)
  | [], k, v => [(k, v)]
  | p :: rest, k, v => if p.1 == k then (k, v) :: rest else p :: setKey rest k v

/-- Property read `obj[k]` on a JS object represented as an association
list. -/
def getKey {α : Type} (l : List (String × α)) (k : String) : Option α :=
  (l.find? (fun p => p.1 == k)).map (fun p => p.2)

/-- JavaScript truthiness of `mongooseDef.type` for a value produced by
`convertType`: an envelope always carries a truthy `type`; a bare nested
schema object has a truthy `type` exactly when one of its own properties is
literally named `type` (its value is then a compiled sub-field object, which
is truthy).  Bare Mongoose type constructors carry no `type` property. -/
def hasTruthyTypeKey : SNode → Bool
  | .sField _ _ _ _ _ => true
  | .sObj fields _ => fields.any (fun p => p.1 == ("type"))
  | _ => false

/-- The assignment `mongooseDef.required = true`. -/
def setRequired : SNode → SNode
  | .sField t e d _ u => .sField t e d true u
  | .sObj f _ => .sObj f true
  | n => n

/-- The required-marking step of the load loop:
`if (definition.required && definition.required.includes(propName)) {
   if (mongooseDef.type) mongooseDef.required = true; }`. -/
def applyRequired (d : EntityDefinition) (propName : String) (m : SNode) : SNode :=
  if (d.required.getD []).contains propName && hasTruthyTypeKey m then setRequired m else m

/-- A compiled Mongoose schema object: the key-ordered field map handed to
`new mongoose.Schema(schemaObj, { strict: false })`. -/
abbrev Schema := List (String × SNode)

/-- The implicit timestamp field `{ type: Date, default: Date.now }`. -/
def dateNowField : SNode := .sField .sDate none (some .vNow) false false

/-- Building `schemaObj` for one definition: first the two base fields
`created_date` and `updated_date`, then every declared property in order,
compiled by `convertType` and run through the required-marking step.  Each
assignment `schemaObj[propName] = mongooseDef` overwrites an existing key in
place, so a declared property named like a base field replaces it. -/
def compileDefinition (d : EntityDefinition) : Schema :=
  let base : Schema := [(("created_date"), dateNowField), (("updated_date"), dateNowField)]
  match d.properties with
  | none => base
  | some props =>
    props.foldl (fun acc p => setKey acc p.1 (applyRequired d p.1 (convertType p.2))) base

/-- One console message of the loader:
* `modelLoaded n` — `console.log` of the per-file success message;
* `loadFailed f` — `console.error` of the catch block around one file;
* `noDefsDir` — `console.warn` when the definitions directory is absent
  (the only `console.warn` in the module);
* `userFallback` — `console.log` of the message printed when the default
  `User` schema is injected. -/
inductive LogEvent where
  | modelLoaded (name : String)
  | loadFailed (file : String)
  | noDefsDir
  | userFallback
deriving DecidableEq, Repr

/-- `file.endsWith(".json")`, the filter of the directory scan. -/
def endsWithJson (file : String) : Bool :=
  List.isSuffixOf (".json").data file.data

/-- `path.parse(file).name`: the file name with its final extension removed.
Only applied to names that end in `.json`; for the dotfile `.json` itself
`path.parse` treats the whole name as the base name. -/
def parseName (file : String) : String :=
  if file == (".json") then file
  else String.mk (file.data.take (file.data.length - 5))

/-- `definition.name || path.parse(file).name`: the registry key of a file,
falling back to the base file name when `name` is absent or falsy (the empty
string). -/
def modelNameOf (file : String) (d : EntityDefinition) : String :=
  match d.name with
  | some n => if n == ("") then parseName file else n
  | none => parseName file

/-- The state threaded through the directory scan: the `Models` map and the
console output so far. -/
structure BuildState where
  models : List (String × Schema)
  logs : List LogEvent

/-- Processing of one directory entry inside `fs.readdirSync(...).forEach`:
skip names not ending in `.json`; a file whose `require` throws is logged as a
failure; otherwise the definition is compiled and registered under its model
name.  `dupThrows` selects the semantics of `mongoose.model(name, schema)`
when `name` was already registered: `true` models mongoose raising
`OverwriteModelError` (which the catch block turns into a logged failure,
leaving the earlier entry in place), `false` a permissive store that silently
replaces the entry. -/
def loadFile (dupThrows : Bool) (st : BuildState) (f : String × Option EntityDefinition) :
    BuildState :=
  if endsWithJson f.1 then
    match f.2 with
    | none => ⟨st.models, st.logs ++ [.loadFailed f.1]⟩
    | some d =>
      let modelName := modelNameOf f.1 d
      let schema := compileDefinition d
      if dupThrows && st.models.any (fun p => p.1 == modelName) then
        ⟨st.models, st.logs ++ [.loadFailed f.1]⟩
      else
        ⟨setKey st.models modelName schema, st.logs ++ [.modelLoaded modelName]⟩
  else st

/-- The hand-written fallback schema registered as `Models.User` when no entry
named `User` exists after the scan, field for field as in the source; the
shorthand declarations `full_name: String` and `tenant_id: String` are the
bare `String` constructor. -/
def UserSchema : Schema :=
  [(("email"), .sField .sString none none true true),
   (("password"), .sField .sString none none true false),
   (("full_name"), .sString),
   (("role"), .sField .sString none (some (.vStr ("user"))) false false),
   (("tenant_id"), .sString),
   (("created_date"), .sField .sDate none (some .vNow) false false)]

/-- The whole module body: scan the definitions directory when it exists
(logging a warning otherwise), then enforce the `User` fallback: when
`Models.User` is absent, register `UserSchema` under `User`. -/
def buildModels (dirExists : Bool) (files : List (String × Option EntityDefinition))
    (dupThrows : Bool) : BuildState :=
  let st := if dirExists then files.foldl (loadFile dupThrows) ⟨[], []⟩ else ⟨[], [.noDefsDir]⟩
  if st.models.any (fun p => p.1 == ("User")) then st
  else ⟨setKey st.models ("User") UserSchema, st.logs ++ [.userFallback]⟩

/-- Lookup of an OWN entry of the `Models` map: the registered definitions
themselves.  This is exact for keys the loader put there (the `Models.User`
test of the fallback and every registered name); the raw route read
`Models[req.params.entity]`, which can also reach values inherited from
`Object.prototype`, is `jsPropRead` below. -/
def resolve (models : List (String × Schema)) (entity : String) : Option Schema :=
  getKey models entity

/-- The property names a read on the object literal `const Models = {}` can
reach through its prototype chain: the properties of `Object.prototype`
(its methods, the `constructor` reference and the Annex B accessors).
Reading any of them yields a function, or for `__proto__` the
`Object.prototype` object itself — in every case a truthy value that is not
a registered model. -/
def objectProtoKeys : List String :=
  [("constructor"), ("hasOwnProperty"), ("isPrototypeOf"), ("propertyIsEnumerable"),
   ("toLocaleString"), ("toString"), ("valueOf"), ("__proto__"),
   ("__defineGetter__"), ("__defineSetter__"), ("__lookupGetter__"), ("__lookupSetter__")]

/-- The possible results of the JavaScript property read `Models[entity]`:
an own key yields the registered model; failing that, a key of
`Object.prototype` yields the inherited truthy non-model value; any other
key yields `undefined`. -/
inductive PropRead where
  | ownModel (s : Schema)
  | inherited
  | absent

/-- The property read `Models[req.params.entity]` performed by every generic
entity route in `src/routes/api.js`, with full JavaScript semantics: own
keys first, then the prototype chain of the plain object literal, then
`undefined`. -/
def jsPropRead (models : List (String × Schema)) (entity : String) : PropRead :=
  match getKey models entity with
  | some s => .ownModel s
  | none => if objectProtoKeys.contains entity then .inherited else .absent

/-- Outcome of the guard at the top of each generic entity route,
`if (!Model) return res.status(400).json({ msg: "Entity not found" })`:
* `entityNotFound` — the read gave `undefined` (falsy), the guard fires and
  the route answers 400 with the entity-not-found message;
* `proceed s` — the read found a registered model, the route continues;
* `proceedNonModel` — the read found a truthy value inherited from
  `Object.prototype`; the guard does NOT fire, the route continues, and the
  later method call on the non-model throws inside the per-route try block
  (the filter route's catch answers 200 with an empty list, the create
  route's catch answers 400 with the raised message) — the entity-not-found
  response is never produced on this path. -/
inductive RouteResult where
  | entityNotFound
  | proceed (schema : Schema)
  | proceedNonModel

/-- The guard of the generic entity routes together with the registry state it
leaves behind; the registry itself is returned unchanged in every case. -/
def entityRouteLookup (models : List (String × Schema)) (entity : String) :
    RouteResult × List (String × Schema) :=
  match jsPropRead models entity with
  | .ownModel s => (.proceed s, models)
  | .inherited => (.proceedNonModel, models)
  | .absent => (.entityNotFound, models)

/-- Observer: did the route answer with the entity-not-found response? -/
def isEntityNotFound : RouteResult → Bool
  | .entityNotFound => true
  | _ => false

/-- Observer: does the named entity exist and carry a field of the given
name? -/
def schemaHasField (models : List (String × Schema)) (entity k : String) : Bool :=
  match resolve models entity with
  | some s => s.any (fun p => p.1 == k)
  | none => false

/-- Observer: is this compiled field a bare nested schema object? -/
def isNestedShape : Option SNode → Bool
  | some (.sObj _ _) => true
  | _ => false

/-- Observer: does this compiled field carry `required = true`? -/
def markedRequired : Option SNode → Bool
  | some (.sField _ _ _ r _) => r
  | some (.sObj _ r) => r
  | _ => false

/-- Observer: the `default` carried by a compiled envelope field. -/
def fieldDefault : Option SNode → Option Value
  | some (.sField _ _ d _ _) => d
  | _ => none

/-- The only `console.warn` the module can emit is the missing-directory
notice. -/
def isWarningLog : LogEvent → Bool
  | .noDefsDir => true
  | _ => false

/-- Does this directory entry successfully contribute a registry entry named
`User`: a `.json` file whose parse succeeds and whose model name is `User`? -/
def definesUser (f : String × Option EntityDefinition) : Bool :=
  endsWithJson f.1 &&
    (match f.2 with
     | some d => modelNameOf f.1 d == ("User")
     | none => false)

/-- The kinds the `convertType` dispatch recognizes explicitly. -/
def recognizedKind (t : Option String) : Bool :=
  t == some ("string") || t == some ("number") || t == some ("integer") ||
  t == some ("boolean") || t == some ("array") || t == some ("object")

/-- The plain descriptor `{ "type": "string" }`. -/
def strDesc : Descriptor := .mk (some ("string")) none none none none none

/-- A well-formed definition file named `User.json` that carries none of the
authentication fields. -/
def userNoEmailDef : EntityDefinition :=
  ⟨some ("User"), some [(("nickname"), strDesc)], none⟩

/-- First of two definition files sharing the model name `Dup`; declares the
field `x`. -/
def dupDefA : EntityDefinition := ⟨some ("Dup"), some [(("x"), strDesc)], none⟩

/-- Second of two definition files sharing the model name `Dup`; declares the
field `y`. -/
def dupDefB : EntityDefinition := ⟨some ("Dup"), some [(("y"), strDesc)], none⟩

/-- A directory containing two files that declare the same model name. -/
def dupFiles : List (String × Option EntityDefinition) :=
  [(("a.json"), some dupDefA), (("b.json"), some dupDefB)]

/-- A definition that declares its own `created_date` property as a plain
string. -/
def overrideDef : EntityDefinition :=
  ⟨some ("Evt"), some [(("created_date"), strDesc)], none⟩

/-- The items descriptor
`{ "type": "string", "format": "date", "enum": ["x"], "default": "x" }`. -/
def dateItemsDesc : Descriptor :=
  .mk (some ("string")) (some ("date")) none none (some [.vStr ("x")]) (some (.vStr ("x")))

/-- The array descriptor whose items carry a temporal format, an enum and a
default. -/
def arrDateDesc : Descriptor := .mk (some ("array")) none (some dateItemsDesc) none none none

/-- The empty descriptor `{}`: no kind, no items, no properties. -/
def emptyDesc : Descriptor := .mk none none none none none none

/-- A definition whose single field has the empty descriptor. -/
def emptyKindDef : EntityDefinition := ⟨some ("Thing"), some [(("x"), emptyDesc)], none⟩

/-- An object descriptor one of whose properties is literally named `type`. -/
def typeKeyObjDesc : Descriptor :=
  .mk (some ("object")) none none (some [(("type"), strDesc)]) none none

/-- A definition whose required field `config` is a bare nested object
containing a property named `type`. -/
def cfgDef : EntityDefinition :=
  ⟨some ("Cfg"), some [(("config"), typeKeyObjDesc)], some [("config")]⟩

/-- A definition file with no `name` member. -/
def taskDefNoName : EntityDefinition := ⟨none, some [(("title"), strDesc)], none⟩

/-! ### Association-list lemmas -/

theorem getKey_setKey_self {α : Type} (l : List (String × α)) (k : String) (v : α) :
    getKey (setKey l k v) k = some v := by
  induction l with
  | nil => simp [setKey, getKey]
  | cons p rest ih =>
    by_cases h : p.1 == k
    · simp [setKey, h, getKey]
    · simp only [setKey, h, Bool.false_eq_true, if_false, getKey] at ih ⊢
      simp [List.find?_cons_of_neg, h, ih]

theorem getKey_setKey_ne {α : Type} (l : List (String × α)) (k : String) (v : α) (K : String)
    (h : (k == K) = false) : getKey (setKey l k v) K = getKey l K := by
  induction l with
  | nil => simp [setKey, getKey, h]
  | cons p rest ih =>
    by_cases hpk : p.1 == k
    · have hp : p.1 = k := by simpa using hpk
      simp [setKey, hpk, getKey, List.find?_cons_of_neg, h, hp]
    · by_cases hpK : p.1 == K
      · simp [setKey, hpk, getKey, List.find?_cons_of_pos, hpK]
      · simp only [setKey, hpk, Bool.false_eq_true, if_false, getKey] at ih ⊢
        simp [List.find?_cons_of_neg, hpK, ih]

theorem any_eq_getKey_isSome {α : Type} (l : List (String × α)) (k : String) :
    l.any (fun p => p.1 == k) = (getKey l k).isSome := by
  induction l with
  | nil => simp [getKey]
  | cons p rest ih =>
    by_cases h : p.1 == k
    · simp [getKey, List.find?_cons_of_pos, h]
    · simp only [getKey] at ih ⊢
      simp [List.find?_cons_of_neg, h, ih]

theorem setKey_all {α : Type} (l : List (String × α)) (k : String) (v : α)
    (P : String × α → Bool) (hall : l.all P = true) (hkv : P (k, v) = true) :
    (setKey l k v).all P = true := by
  induction l with
  | nil => simpa [setKey]
  | cons p rest ih =>
    simp only [List.all_cons, Bool.and_eq_true] at hall
    by_cases h : p.1 == k
    · simp [setKey, h, hkv, hall.2]
    · simp [setKey, h, hall.1, ih hall.2]

theorem any_eq_false_of_all_not {α : Type} (l : List α) (p : α → Bool)
    (h : l.all (fun a => !(p a)) = true) : l.any p = false := by
  induction l with
  | nil => rfl
  | cons a l ih => simp_all

/-! ### Facts about the compiler and the build loop shared by several claims -/

/-- Faithfulness of `primTypeOf`: on every kind other than `object` (the only
kinds the guarded branch can pass it), the synthetic recursive call
`convertType({ type: t })` of the source produces exactly the envelope whose
type is `primTypeOf t`. -/
theorem convertType_synthetic (t : Option String) (h : t ≠ some ("object")) :
    convertType (.mk t none none none none none)
      = .sField (primTypeOf t) none none false false := by
  rw [convertType.eq_def]
  simp only [primTypeOf]
  split_ifs <;> simp_all

/-- One scan step keeps the `Models` map free of a `User` key as long as the
processed entry does not successfully define `User`. -/
theorem loadFile_no_user (dt : Bool) (st : BuildState) (f : String × Option EntityDefinition)
    (hst : st.models.all (fun p => !(p.1 == ("User"))) = true)
    (hf : definesUser f = false) :
    (loadFile dt st f).models.all (fun p => !(p.1 == ("User"))) = true := by
  unfold loadFile
  unfold definesUser at hf
  cases hjson : endsWithJson f.1 with
  | false => simpa [hjson] using hst
  | true =>
    cases hc : f.2 with
    | none => simpa [hjson, hc] using hst
    | some d =>
      simp only [hjson, hc, Bool.true_and] at hf
      by_cases hdup : dt && st.models.any (fun p => p.1 == modelNameOf f.1 d)
      · simpa [hjson, hc, hdup] using hst
      · have hgoal := setKey_all st.models (modelNameOf f.1 d) (compileDefinition d)
          (fun p => !(p.1 == ("User"))) hst (by simpa using hf)
        simpa [hjson, hc, hdup] using hgoal

/-- The whole scan keeps the `Models` map free of a `User` key when no entry
successfully defines `User`. -/
theorem foldl_no_user (dt : Bool) (files : List (String × Option EntityDefinition))
    (st : BuildState)
    (hst : st.models.all (fun p => !(p.1 == ("User"))) = true)
    (hfiles : files.all (fun f => !(definesUser f)) = true) :
    ((files.foldl (loadFile dt) st).models.all (fun p => !(p.1 == ("User")))) = true := by
  induction files generalizing st with
  | nil => simpa using hst
  | cons f rest ih =>
    simp only [List.all_cons, Bool.and_eq_true, Bool.not_eq_true'] at hfiles
    exact ih (loadFile dt st f) (loadFile_no_user dt st f hst hfiles.1) (by
      simp only [List.all_eq_true] at hfiles ⊢
      exact hfiles.2)

/-- The property loop of `compileDefinition` leaves keys alone that no
declared property overwrites. -/
theorem getKey_compile_foldl (d : EntityDefinition) (props : List (String × Descriptor))
    (base : Schema) (K : String)
    (h : props.all (fun p => !(p.1 == K)) = true) :
    getKey (props.foldl
      (fun acc p => setKey acc p.1 (applyRequired d p.1 (convertType p.2))) base) K
      = getKey base K := by
  induction props generalizing base with
  | nil => rfl
  | cons p rest ih =>
    simp only [List.all_cons, Bool.and_eq_true, Bool.not_eq_true'] at h
    rw [List.foldl_cons, ih _ h.2, getKey_setKey_ne _ _ _ _ h.1]

/-! ### C1 — the `User` fallback invariant -/

/-- C1 counterexample: the claim asserts the `User` schema carries the
login/credential/role fields after EVERY build, but a build whose input
contains a well-formed file that registers a definition under the name `User`
keeps that definition, and its compiled schema need not contain an `email`
field at all.  The fallback only fires when no entry named `User` exists. -/
theorem user_fallback_shape_cex :
    (resolve (buildModels true [(("User.json"), some userNoEmailDef)] true).models
        ("User")).isSome = true
    ∧ schemaHasField (buildModels true [(("User.json"), some userNoEmailDef)] true).models
        ("User") ("email") = false := by decide

/-- C1 (amended): after every registry build the registry resolves `User` —
and whenever no directory entry successfully registers a definition named
`User` (zero files, an absent directory, or a failed load of the file naming
the reserved kind), the `User` entry is exactly the built-in fallback schema,
which carries the unique and required login identifier `email`, the required
secret-credential field `password`, and a `role` field defaulting to the
string `user`. -/
theorem user_fallback_invariant (dirExists : Bool)
    (files : List (String × Option EntityDefinition)) (dupThrows : Bool) :
    (resolve (buildModels dirExists files dupThrows).models ("User")).isSome = true
    ∧ (files.all (fun f => !(definesUser f)) = true →
        resolve (buildModels dirExists files dupThrows).models ("User") = some UserSchema)
    ∧ getKey UserSchema ("email") = some (.sField .sString none none true true)
    ∧ getKey UserSchema ("password") = some (.sField .sString none none true false)
    ∧ getKey UserSchema ("role")
        = some (.sField .sString none (some (.vStr ("user"))) false false) := by
  refine ⟨?_, ?_, rfl, rfl, rfl⟩
  · cases dirExists with
    | false => rfl
    | true =>
      simp only [buildModels, if_true]
      by_cases hU : ((files.foldl (loadFile dupThrows) ⟨[], []⟩).models.any
          (fun p => p.1 == ("User"))) = true
      · simp only [hU, if_true, resolve]
        rw [← any_eq_getKey_isSome]
        exact hU
      · simp only [hU, if_false, Bool.false_eq_true, resolve]
        rw [getKey_setKey_self]
        rfl
  · intro h
    cases dirExists with
    | false => rfl
    | true =>
      simp only [buildModels, if_true]
      have hall : ((files.foldl (loadFile dupThrows) ⟨[], []⟩).models.all
          (fun p => !(p.1 == ("User")))) = true :=
        foldl_no_user dupThrows files ⟨[], []⟩ rfl h
      have hany := any_eq_false_of_all_not _ _ hall
      rw [if_neg (by simp [hany]), resolve, getKey_setKey_self]

/-- C1 witness: the zero-file build resolves `User` to the fallback schema. -/
theorem user_fallback_invariant_witness :
    resolve (buildModels true [] true).models ("User") = some UserSchema :=
  (user_fallback_invariant true [] true).2.1 (by rfl)

/-! ### C2 — duplicate entity-kind names -/

/-- C2 counterexample: two files declaring the model name `Dup` with fields
`x` and `y` respectively.  Under the documented semantics of
`mongoose.model`, which raises `OverwriteModelError` on re-registration
(`dupThrows = true`), the registry keeps the EARLIER fields (`x`, not `y`)
and the second file is logged through the per-file failure handler.  Even
under a permissive store that silently overwrites (`dupThrows = false`), the
later definition wins, but the console output consists of two per-file
success messages and the unrelated fallback notice — no event records the
collision, and the only `console.warn` the module can emit (`noDefsDir`)
never fires.  Either way the claim fails. -/
theorem duplicate_name_cex :
    (schemaHasField (buildModels true dupFiles true).models ("Dup") ("x") = true
      ∧ schemaHasField (buildModels true dupFiles true).models ("Dup") ("y") = false
      ∧ (buildModels true dupFiles true).logs
          = [.modelLoaded ("Dup"), .loadFailed ("b.json"), .userFallback])
    ∧ (schemaHasField (buildModels true dupFiles false).models ("Dup") ("y") = true
      ∧ (buildModels true dupFiles false).logs
          = [.modelLoaded ("Dup"), .modelLoaded ("Dup"), .userFallback]) := by decide

/-- C2 (amended): when two `.json` files of a build resolve to the same model
name and both parse, the build does not abort, but under the store's
re-registration guard the registry maps the name to the fields of the
EARLIER definition; the later file is logged through the generic load-failure
handler, and no collision warning is recorded (no `console.warn` event occurs
in the build log at all). -/
theorem duplicate_name_resolution (f1 f2 : String) (d1 d2 : EntityDefinition)
    (h1 : endsWithJson f1 = true) (h2 : endsWithJson f2 = true)
    (hn : modelNameOf f2 d2 = modelNameOf f1 d1) :
    resolve (buildModels true [(f1, some d1), (f2, some d2)] true).models (modelNameOf f1 d1)
      = some (compileDefinition d1)
    ∧ (buildModels true [(f1, some d1), (f2, some d2)] true).logs
        = [.modelLoaded (modelNameOf f1 d1), .loadFailed f2]
          ++ (if (modelNameOf f1 d1 == ("User")) = true then [] else [.userFallback])
    ∧ (buildModels true [(f1, some d1), (f2, some d2)] true).logs.all
        (fun e => !(isWarningLog e)) = true := by
  have hstep : (buildModels true [(f1, some d1), (f2, some d2)] true)
      = (if ((modelNameOf f1 d1 == ("User")) = true) then
          ⟨[(modelNameOf f1 d1, compileDefinition d1)],
            [.modelLoaded (modelNameOf f1 d1), .loadFailed f2]⟩
        else
          ⟨[(modelNameOf f1 d1, compileDefinition d1), (("User"), UserSchema)],
            [.modelLoaded (modelNameOf f1 d1), .loadFailed f2, .userFallback]⟩) := by
    simp only [buildModels, if_true, List.foldl_cons, List.foldl_nil, loadFile, h1, h2, hn]
    simp only [List.any_nil, Bool.and_false, Bool.false_eq_true, if_false, setKey,
      List.any_cons, Bool.or_false, beq_self_eq_true, Bool.and_self, if_true]
    by_cases hU : (modelNameOf f1 d1 == ("User")) = true
    · simp [hU]
    · simp [hU, setKey]
  rw [hstep]
  by_cases hU : (modelNameOf f1 d1 == ("User")) = true
  · simp only [hU, if_true]
    refine ⟨?_, by simp, by simp [isWarningLog]⟩
    simp [resolve, getKey, List.find?_cons_of_pos]
  · simp only [hU, Bool.false_eq_true, if_false]
    refine ⟨?_, by simp, by simp [isWarningLog]⟩
    simp [resolve, getKey, List.find?_cons_of_pos]

/-- C2 witness: instantiated at the two concrete duplicate files. -/
theorem duplicate_name_resolution_witness :
    resolve (buildModels true [(("a.json"), some dupDefA), (("b.json"), some dupDefB)] true).models
        (modelNameOf ("a.json") dupDefA) = some (compileDefinition dupDefA) :=
  (duplicate_name_resolution ("a.json") ("b.json") dupDefA dupDefB
    (by decide) (by decide) (by decide)).1

/-! ### C3 — the implicit timestamp fields -/

/-- C3 counterexample: the claim fails twice.  First, the synthesized
fallback `User` schema does not contain `updated_date` at all (its literal
field list ends at `created_date`).  Second, even for a successfully loaded
definition the implicit fields survive only when the descriptor does not
redeclare them: `overrideDef` declares `created_date` as a plain string, and
the compiled schema then carries a `String` field with no creation-time
default in its place. -/
theorem implicit_timestamp_fields_cex :
    (schemaHasField (buildModels true [] true).models ("User") ("updated_date") = false
      ∧ (resolve (buildModels true [] true).models ("User")).isSome = true)
    ∧ (getKey (compileDefinition overrideDef) ("created_date")
        = some (.sField .sString none none false false)
      ∧ getKey (compileDefinition overrideDef) ("created_date") ≠ some dateNowField) := by
  refine ⟨by decide, rfl, ?_⟩
  intro h
  injection h with h2
  injection h2 with ht
  exact SNode.noConfusion ht

/-- C3 (amended): for every loaded definition whose declared properties do
not themselves use the names `created_date` or `updated_date`, the compiled
schema carries both implicit fields as `Date` fields defaulting to
`Date.now`; the fallback `User` schema carries only `created_date` with that
default and has no `updated_date` field. -/
theorem implicit_timestamp_fields (d : EntityDefinition)
    (h : (d.properties.getD []).all
        (fun p => !(p.1 == ("created_date")) && !(p.1 == ("updated_date"))) = true) :
    getKey (compileDefinition d) ("created_date") = some dateNowField
    ∧ getKey (compileDefinition d) ("updated_date") = some dateNowField
    ∧ getKey UserSchema ("created_date") = some (.sField .sDate none (some .vNow) false false)
    ∧ UserSchema.any (fun p => p.1 == ("updated_date")) = false := by
  refine ⟨?_, ?_, rfl, rfl⟩ <;>
  · unfold compileDefinition
    cases hp : d.properties with
    | none => rfl
    | some props =>
      rw [getKey_compile_foldl]
      · rfl
      · rw [hp] at h
        simp only [Option.getD_some, List.all_eq_true, Bool.and_eq_true, Bool.not_eq_true'] at h
        simp only [List.all_eq_true, Bool.not_eq_true']
        intro x hx
        first
        | exact (h x hx).1
        | exact (h x hx).2

/-- C3 witness: a definition declaring only `title` keeps the implicit
`created_date`. -/
theorem implicit_timestamp_fields_witness :
    getKey (compileDefinition taskDefNoName) ("created_date") = some dateNowField :=
  (implicit_timestamp_fields taskDefNoName (by decide)).1

/-! ### C4 — the object branch bypasses the envelope -/

/-- C4: for every descriptor of kind `object` with a properties map `P`, the
compiled result is exactly the bare record of the recursively compiled
properties — the `sObj` constructor, not an `sField` envelope — so whatever
`enum` or `default` the object descriptor itself carries (the quantified
`en` and `df`) does not appear in the output, which depends only on `P`. -/
theorem object_branch_bare (P : List (String × Descriptor)) (fmt : Option String)
    (it : Option Descriptor) (en : Option (List Value)) (df : Option Value) :
    convertType (.mk (some ("object")) fmt it (some P) en df) = .sObj (convertProps P) false := by
  rw [convertType.eq_def]
  simp

/-! ### C5 — arrays of objects reuse the object compilation -/

/-- C5: for every descriptor of kind `array` whose items descriptor has kind
`object`, the compiled field is the envelope of a sequence type whose
per-record shape is exactly the result of compiling the items descriptor
directly (both sides reduce to the bare record compiled from the same
properties map, whether present or absent). -/
theorem array_of_object_record_shape (P : Option (List (String × Descriptor)))
    (fmt g : Option String) (it2 : Option Descriptor) (en2 : Option (List Value))
    (df2 : Option Value) (pr : Option (List (String × Descriptor)))
    (en : Option (List Value)) (df : Option Value) :
    convertType (.mk (some ("array")) fmt (some (.mk (some ("object")) g it2 P en2 df2)) pr en df)
      = .sField (.sArray (convertType (.mk (some ("object")) g it2 P en2 df2)))
          en df false false := by
  rw [convertType.eq_def, convertType.eq_def]
  cases P <;> simp

/-! ### C6 — arrays of primitives drop the item metadata -/

/-- C6 counterexample: the claim says a temporal `format` on the items
descriptor yields a timestamp element and that item-level enum/default
metadata is carried over.  The code instead rebuilds a synthetic descriptor
from the item kind alone: the array whose items are
`{type: string, format: date, enum: [x], default: x}` compiles to a sequence
of plain `String` with no metadata, although compiling the items descriptor
itself yields a `Date` envelope carrying the enum and the default. -/
theorem array_items_metadata_cex :
    convertType arrDateDesc = .sField (.sArray .sString) none none false false
    ∧ convertType dateItemsDesc
        = .sField .sDate (some [.vStr ("x")]) (some (.vStr ("x"))) false false
    ∧ SNode.sString ≠ SNode.sDate :=
  ⟨rfl, rfl, fun h => SNode.noConfusion h⟩

/-- C6 (amended): for every array descriptor whose items carry a truthy
non-`object` kind, the compiled element type is determined by the item kind
alone — it equals the `type` of compiling the synthetic descriptor
`{type: items.type}`, so `format`, `enum` and `default` on the items
descriptor are discarded (second conjunct: that synthetic compilation is
exactly the `primTypeOf` envelope). -/
theorem array_of_primitive_element (itT itFmt : Option String) (itIt : Option Descriptor)
    (itP : Option (List (String × Descriptor))) (itEn : Option (List Value)) (itDf : Option Value)
    (fmt : Option String) (pr : Option (List (String × Descriptor)))
    (en : Option (List Value)) (df : Option Value)
    (hobj : itT ≠ some ("object")) (htr : strTruthy itT = true) :
    convertType (.mk (some ("array")) fmt (some (.mk itT itFmt itIt itP itEn itDf)) pr en df)
      = .sField (.sArray (primTypeOf itT)) en df false false
    ∧ convertType (.mk itT none none none none none)
      = .sField (primTypeOf itT) none none false false := by
  constructor
  · rw [convertType.eq_def]
    simp [hobj, htr]
  · exact convertType_synthetic itT hobj

/-- C6 witness: an array of numbers compiles to a sequence of `Number`. -/
theorem array_of_primitive_element_witness :
    convertType (.mk (some ("array")) none
        (some (.mk (some ("number")) none none none none none)) none none none)
      = .sField (.sArray (primTypeOf (some ("number")))) none none false false :=
  (array_of_primitive_element (some ("number")) none none none none none none none none none
    (by decide) (by decide)).1

/-! ### C7 — unknown and missing kinds -/

/-- C7 counterexample: the empty descriptor, which lacks a primitive kind and
both `items` and `properties`, does not fail — it compiles silently to the
very same opaque `Mixed` fallback used for unrecognized kinds, and a
definition containing it loads successfully (the build log records the
per-file success message, no failure). -/
theorem missing_kind_silent_cex :
    convertType emptyDesc = .sField .sMixed none none false false
    ∧ (buildModels true [(("Thing.json"), some emptyKindDef)] true).logs
        = [.modelLoaded ("Thing"), .userFallback] :=
  ⟨rfl, by decide⟩

/-- C7 (amended): compiling any descriptor whose kind is not one of the six
recognized ones — including a descriptor with no kind at all, whatever its
other members — yields the opaque `Mixed` envelope (still carrying the
descriptor's enum and default) and never reports an error; `convertType` is
total and the loader records no failure for such descriptors. -/
theorem unrecognized_kind_opaque (t fmt : Option String) (it : Option Descriptor)
    (pr : Option (List (String × Descriptor))) (en : Option (List Value)) (df : Option Value)
    (h : recognizedKind t = false) :
    convertType (.mk t fmt it pr en df) = .sField .sMixed en df false false := by
  have h1 : ¬(t = some ("string")) := fun he => by simp [recognizedKind, he] at h
  have h2 : ¬(t = some ("number")) := fun he => by simp [recognizedKind, he] at h
  have h3 : ¬(t = some ("integer")) := fun he => by simp [recognizedKind, he] at h
  have h4 : ¬(t = some ("boolean")) := fun he => by simp [recognizedKind, he] at h
  have h5 : ¬(t = some ("array")) := fun he => by simp [recognizedKind, he] at h
  have h6 : ¬(t = some ("object")) := fun he => by simp [recognizedKind, he] at h
  rw [convertType.eq_def]
  simp [h1, h2, h3, h4, h5, h6]

/-- C7 witness: a descriptor of the unknown kind `geo` compiles to the opaque
fallback. -/
theorem unrecognized_kind_opaque_witness :
    convertType (.mk (some ("geo")) none none none none none)
      = .sField .sMixed none none false false :=
  unrecognized_kind_opaque (some ("geo")) none none none none none (by decide)

/-! ### C8 — the required-marking asymmetry -/

/-- C8 counterexample: the loader marks a field mandatory by testing the
truthiness of `mongooseDef.type`.  For the required field `config`, compiled
as a bare nested object one of whose properties is literally named `type`,
that test passes, so the bare nested-object shape IS marked required —
refuting the claim that such a shape is never marked mandatory. -/
theorem required_nested_type_cex :
    isNestedShape (getKey (compileDefinition cfgDef) ("config")) = true
    ∧ markedRequired (getKey (compileDefinition cfgDef) ("config")) = true := by decide

/-- C8 (amended): a required field compiled to an envelope is always marked
mandatory, and a required field compiled to a bare nested-object shape is
left unmarked exactly when the nested shape contains no property named
`type`; when it does contain one, the truthiness test on `mongooseDef.type`
misfires and the required flag is set on the bare shape as well. -/
theorem required_marking_rule (d : EntityDefinition) (p : String)
    (P P2 : List (String × SNode)) (b b2 u : Bool) (t : SNode)
    (e : Option (List Value)) (df : Option Value)
    (hP : P.all (fun q => !(q.1 == ("type"))) = true)
    (hP2 : P2.any (fun q => q.1 == ("type")) = true)
    (hreq : (d.required.getD []).contains p = true) :
    applyRequired d p (.sObj P b) = .sObj P b
    ∧ applyRequired d p (.sField t e df false u) = .sField t e df true u
    ∧ applyRequired d p (.sObj P2 b2) = .sObj P2 true := by
  have hPany := any_eq_false_of_all_not P (fun q => q.1 == ("type")) hP
  have hmem : p ∈ d.required.getD [] := by simpa using hreq
  refine ⟨?_, ?_, ?_⟩ <;>
    simp [applyRequired, hasTruthyTypeKey, setRequired, hmem, hPany, hP2]

/-- C8 witness: instantiated at the `Cfg` definition with a plain nested
shape, an envelope, and a nested shape containing a `type` property. -/
theorem required_marking_rule_witness :
    applyRequired cfgDef ("config") (.sObj [(("a"), .sString)] false)
      = .sObj [(("a"), .sString)] false
    ∧ applyRequired cfgDef ("config") (.sField .sString none none false false)
      = .sField .sString none none true false
    ∧ applyRequired cfgDef ("config") (.sObj [(("type"), .sString)] false)
      = .sObj [(("type"), .sString)] true :=
  required_marking_rule cfgDef ("config") [(("a"), .sString)] [(("type"), .sString)]
    false false false .sString none none (by decide) (by decide) (by decide)

/-! ### C9 — lookup misses and the prototype chain -/

/-- C9 counterexample: `constructor` names no entry of the zero-file registry
(first conjunct: it is not a key of the map), yet the property read
`Models["constructor"]` finds the inherited `Object.prototype.constructor`,
a truthy value, so the `!Model` guard does not fire and the caller never
observes the entity-not-found response; likewise for `__proto__`.  A name
outside the prototype chain, by contrast, does produce the entity-not-found
answer — refuting the claim as stated for EVERY name not present in the
registry. -/
theorem proto_lookup_cex :
    ((buildModels true [] true).models.any (fun p => p.1 == ("constructor"))) = false
    ∧ isEntityNotFound (entityRouteLookup (buildModels true [] true).models
        ("constructor")).1 = false
    ∧ isEntityNotFound (entityRouteLookup (buildModels true [] true).models
        ("__proto__")).1 = false
    ∧ isEntityNotFound (entityRouteLookup (buildModels true [] true).models
        ("NonexistentKind")).1 = true := by decide

/-- C9 (amended): for every name that is not a key of the registry, the read
`Models[name]` is an explicit absence exactly outside the property names
inherited from `Object.prototype`: such names make the guard answer the
client-facing entity-not-found response, with nothing raised and the
registry unchanged.  For the inherited names (`constructor`, `toString`,
`hasOwnProperty`, `__proto__`, ...) the read is truthy, the guard does not
fire, and the entity-not-found response is never produced — the request
instead fails later inside the per-route try/catch.  In both cases the
lookup has no effect on the registry. -/
theorem lookup_guard_rule (models : List (String × Schema)) (entity : String)
    (hown : models.all (fun p => !(p.1 == entity)) = true) :
    (objectProtoKeys.contains entity = false →
      jsPropRead models entity = .absent
      ∧ entityRouteLookup models entity = (.entityNotFound, models))
    ∧ (objectProtoKeys.contains entity = true →
      jsPropRead models entity = .inherited
      ∧ entityRouteLookup models entity = (.proceedNonModel, models)) := by
  have hres : getKey models entity = none := by
    unfold getKey
    rw [List.find?_eq_none.mpr]
    · rfl
    · intro x hx
      simp only [List.all_eq_true, Bool.not_eq_true'] at hown
      simp [hown x hx]
  refine ⟨fun hp => ?_, fun hp => ?_⟩ <;>
  · have hmem := by simpa using hp
    constructor <;> simp [jsPropRead, entityRouteLookup, hres, hmem]

/-- C9 witness: the zero-file registry answers entity-not-found for an
unknown kind outside the prototype chain. -/
theorem lookup_guard_rule_witness :
    entityRouteLookup (buildModels true [] true).models ("NonexistentKind")
      = (.entityNotFound, (buildModels true [] true).models) :=
  ((lookup_guard_rule (buildModels true [] true).models ("NonexistentKind")
    (by decide)).1 (by decide)).2

/-! ### C10 — the file-name fallback for missing names -/

/-- C10: a `.json` file whose parsed definition has no `name` member is still
registered, keyed by the base file name (the name with its `.json` extension
removed), and resolving that key returns its compiled schema. -/
theorem filename_default_key (f : String) (d : EntityDefinition) (dt : Bool)
    (hjson : endsWithJson f = true) (hname : d.name = none) :
    resolve (buildModels true [(f, some d)] dt).models (parseName f)
      = some (compileDefinition d) := by
  have hmn : modelNameOf f d = parseName f := by simp [modelNameOf, hname]
  simp only [buildModels, List.foldl_cons, List.foldl_nil, loadFile, hjson, if_true, hmn]
  simp only [setKey, List.any_nil, Bool.and_false, Bool.false_eq_true, if_false]
  by_cases hU : (parseName f == ("User")) = true
  · simp only [List.any_cons, List.any_nil, hU, Bool.or_false, if_true, resolve]
    simp [getKey, List.find?_cons_of_pos]
  · simp only [List.any_cons, List.any_nil, hU, Bool.or_false, Bool.false_eq_true, if_false]
    simp only [setKey, hU, Bool.false_eq_true, if_false, resolve]
    simp [getKey, List.find?_cons_of_pos]

/-- C10 witness: `Task.json` with a nameless definition registers under
`Task`. -/
theorem filename_default_key_witness :
    resolve (buildModels true [(("Task.json"), some taskDefNoName)] true).models
        (parseName ("Task.json")) = some (compileDefinition taskDefNoName) :=
  filename_default_key ("Task.json") taskDefNoName true (by decide) rfl

end SchemaDefs
